import Mathlib

/-!
Shallow embedding of `eight333.go` from the `spvwallet` repository: the
SPV chain-sync engine.  Each Go handler is translated as a pure function
from the engine's mutable state (`Wallet`) and the responses of its
collaborators (header-chain store, transaction store, peer manager) to a
new state together with the ordered list of externally visible actions it
performs (peer disconnects, queued messages, store calls, spawned
goroutines).  Go channels are modelled explicitly: receiving from an
empty open channel blocks (`none` result of the whole handler), receiving
from a closed empty channel yields the zero value, and sending on a
closed channel panics, which the surrounding `recover` turns into an
abort of the remaining loop iterations.
-/

abbrev Hash := Nat
abbrev PeerID := Nat

inductive ChainState where
  | SYNCING
  | WAITING
deriving DecidableEq, Repr

/-- The `blockQueue` channel: buffered contents plus a closed flag. -/
structure BlockQueue where
  items : List Hash
  closed : Bool
deriving DecidableEq, Repr

/-- Receive `<-w.blockQueue`: take the first buffered element; on an empty closed
channel Go returns the zero value (hash 0); on an empty open channel the
receive blocks (`none`). -/
def chanRecv (q : BlockQueue) : Option (Hash × BlockQueue) :=
  match q.items with
  | h :: t => some (h, { q with items := t })
  | [] => if q.closed then some (0, q) else none

/-- Send `w.blockQueue <- h`: sending on a closed channel panics (`none`). -/
def chanSend (q : BlockQueue) (h : Hash) : Option BlockQueue :=
  if q.closed then none else some { q with items := q.items ++ [h] }

/-- Close `close(w.blockQueue)`: closing an already-closed channel panics (`none`). -/
def chanClose (q : BlockQueue) : Option BlockQueue :=
  if q.closed then none else some { q with closed := true }

/-- Go map read `m[k]` with the zero value 0 for an absent key. -/
def mapGet (m : List (Nat × Int)) (k : Nat) : Int :=
  match m.lookup k with
  | some v => v
  | none => 0

/-- Go map write `m[k] = v` (later writes shadow earlier ones for lookup). -/
def mapPut (m : List (Nat × Int)) (k : Nat) (v : Int) : List (Nat × Int) :=
  (k, v) :: m

/-- Engine state owned by `SPVWallet`: the chain state kept in the
blockchain object, the block-expectation channel, the `toDownload`
pending-tx-height map and the per-peer false-positive accumulator. -/
structure Wallet where
  chainState : ChainState
  blockQueue : BlockQueue
  toDownload : List (Nat × Int)
  fpAccumulator : List (Nat × Int)
deriving DecidableEq, Repr

/-- Externally visible actions a handler performs, in program order. -/
inductive Act where
  | disconnect (p : PeerID)
  | commitHeaderCall (h : Hash)
  | processReorg (height : Nat)
  | putReorgMarker (height : Nat)
  | spawnChainDownload (p : PeerID)
  | markDead (txid : Nat)
  | sendGetBlocks (p : PeerID) (locator : List Hash)
  | sendGetData (p : PeerID) (h : Hash)
  | sendFilter (p : PeerID)
  | sendInv (p : PeerID)
  | ingestCall (txid : Nat) (height : Int)
  | fPositiveEvent (p : PeerID)
  | rebroadcastCall
deriving DecidableEq, Repr

/-- Result of `blockchain.CommitHeader`: whether the header is new, the
divergence height of a reorg (if one happened) and the committed height. -/
structure CommitResult where
  newBlock : Bool
  reorg : Option Nat
  height : Nat
deriving DecidableEq, Repr

/-- One record returned by `txstore.Txns().GetAll(false)`.  `txid = none`
models a stored Txid string that `chainhash.NewHashFromStr` rejects;
`markDeadErr` models `markAsDead` returning an error for this record.
Timestamps are integer seconds. -/
structure TxnRec where
  txid : Option Nat
  height : Int
  timestamp : Int
  markDeadErr : Bool
deriving DecidableEq, Repr

/-- Constant `MAX_UNCONFIRMED_TIME = time.Hour * 24 * 7`, in seconds. -/
def MAX_UNCONFIRMED_TIME : Int := 7 * 24 * 60 * 60

/-- The staleness sweep loop body of `onMerkleBlock`, iterating over the
records in the order the Go loop visits them (`i` from `len-1` down to 0,
so the caller passes the reversed list).  A record is acted on when
`now.After(Timestamp.Add(MAX_UNCONFIRMED_TIME))` holds and its height is
0; a Txid parse failure or a `markAsDead` error is logged and the loop
continues (the `markAsDead` call itself still happens and is recorded). -/
def sweepGo : List TxnRec → Int → List Act
  | [], _ => []
  | t :: rest, now =>
    (if now > t.timestamp + MAX_UNCONFIRMED_TIME ∧ t.height = 0 then
       match t.txid with
       | none => []
       | some id => [Act.markDead id]
     else []) ++ sweepGo rest now

/-- Filter refresh `GimmeFilter` and `QueueMessage(filt.MsgFilterLoad())`: on a filter-build
error nothing is sent. -/
def updateFilterAndSend (p : PeerID) (filterOk : Bool) : List Act :=
  if filterOk then [Act.sendFilter p] else []

/-- Collaborator responses consumed by `onMerkleBlock`. -/
structure MerkleEnv where
  downloadPeer : Option PeerID
  checkMBlock : Option (List Nat)
  commit : Option CommitResult
  getAllTxns : Option (List TxnRec)
  now : Int
deriving Repr

/-- Tail of `onMerkleBlock` after the order check: proof validation, header
commit, the reorg path, recording of matched txids, sync continuation and
the staleness sweep. -/
def onMerkleBlockBody (w : Wallet) (p : PeerID) (headerHash : Hash)
    (env : MerkleEnv) : Wallet × List Act :=
  match env.checkMBlock with
  | none => (w, [Act.disconnect p])
  | some txids =>
    match env.commit with
    | none => (w, [Act.commitHeaderCall headerHash])
    | some cr =>
      if cr.newBlock = false then (w, [Act.commitHeaderCall headerHash])
      else
        match cr.reorg with
        | some d =>
          ({ w with chainState := ChainState.SYNCING },
           [Act.commitHeaderCall headerHash, Act.processReorg d,
            Act.putReorgMarker d, Act.spawnChainDownload p])
        | none =>
          let w1 : Wallet :=
            { w with toDownload :=
                txids.foldl (fun m t => mapPut m t (Int.ofNat cr.height)) w.toDownload }
          let acts1 : List Act :=
            if w1.blockQueue.items.length = 0 ∧ w1.chainState = ChainState.SYNCING then
              [Act.commitHeaderCall headerHash, Act.spawnChainDownload p]
            else [Act.commitHeaderCall headerHash]
          if w1.chainState = ChainState.WAITING then
            match env.getAllTxns with
            | none => (w1, acts1)
            | some txns => (w1, acts1 ++ sweepGo txns.reverse env.now)
          else (w1, acts1)

/-- Handler `onMerkleBlock(p, m)`.  While SYNCING with `p` the designated download
peer, the next expected hash is received from the block queue first; a
mismatch disconnects the peer and aborts.  `none` means the handler
blocks forever on an empty open queue. -/
def onMerkleBlock (w : Wallet) (p : PeerID) (headerHash : Hash)
    (env : MerkleEnv) : Option (Wallet × List Act) :=
  if w.chainState = ChainState.SYNCING ∧ env.downloadPeer = some p then
    match chanRecv w.blockQueue with
    | none => none
    | some (queueHash, q) =>
      let w1 : Wallet := { w with blockQueue := q }
      if headerHash ≠ queueHash then (some (w1, [Act.disconnect p]))
      else some (onMerkleBlockBody w1 p headerHash env)
  else some (onMerkleBlockBody w p headerHash env)

/-- Collaborator responses consumed by `startChainDownload`. -/
structure SyncEnv where
  localHeight : Nat
  peerLastBlock : Int
  moreBlocks : Bool
  locator : List Hash
  pendingInv : List Nat
  connectedPeers : List PeerID
deriving Repr

/-- Go conversion `uint32(i)` of an `int32` value. -/
def uint32cast (i : Int) : Nat := (i % 4294967296).toNat

/-- Rebroadcast: fetch the pending inventory; if empty do nothing,
otherwise send it to every connected peer. -/
def Rebroadcast (pendingInv : List Nat) (peers : List PeerID) : List Act :=
  if pendingInv.length = 0 then []
  else peers.map fun p => Act.sendInv p

/-- Driver `startChainDownload(p)`: while SYNCING, if the local height has
caught up with the peer's advertised height and the peer manager reports
no better peer, transition to WAITING, rebroadcast and close the block
queue (a second close panics and is recovered, leaving the state as it
then is); otherwise request more blocks from the current locator. -/
def startChainDownload (w : Wallet) (p : PeerID) (env : SyncEnv) :
    Wallet × List Act :=
  if w.chainState = ChainState.SYNCING then
    if env.localHeight ≥ uint32cast env.peerLastBlock then
      if env.moreBlocks = false then
        let w1 : Wallet := { w with chainState := ChainState.WAITING }
        let acts : List Act :=
          Act.rebroadcastCall :: Rebroadcast env.pendingInv env.connectedPeers
        match chanClose w1.blockQueue with
        | some q => ({ w1 with blockQueue := q }, acts)
        | none => (w1, acts)
      else (w, [])
    else (w, [Act.sendGetBlocks p env.locator])
  else (w, [])

/-- Collaborator responses consumed by `onTx`. -/
structure TxEnv where
  ingest : Option Nat
  filterOk : Bool
deriving Repr

/-- Handler `onTx(p, m)`: read the recorded height of the tx (0 when absent),
hand tx and height to `txstore.Ingest`; zero hits emit one
false-positive event for `p`, nonzero hits send an updated filter. -/
def onTx (w : Wallet) (p : PeerID) (txHash : Nat) (env : TxEnv) :
    Wallet × List Act :=
  let height := mapGet w.toDownload txHash
  let acts := [Act.ingestCall txHash height]
  match env.ingest with
  | none => (w, acts)
  | some hits =>
    if hits = 0 then (w, acts ++ [Act.fPositiveEvent p])
    else (w, acts ++ updateFilterAndSend p env.filterOk)

/-- One iteration of `fPositiveHandler` for a miss event on peer `p`:
increment the accumulator; past 7, refresh the filter and reset to 0. -/
def fPositiveHandlerStep (w : Wallet) (p : PeerID) (filterOk : Bool) :
    Wallet × List Act :=
  let c := mapGet w.fpAccumulator p + 1
  if c > 7 then
    ({ w with fpAccumulator := mapPut w.fpAccumulator p 0 },
     updateFilterAndSend p filterOk)
  else
    ({ w with fpAccumulator := mapPut w.fpAccumulator p c }, [])

/-- Run `fPositiveHandler` over a finite list of miss events, each a peer
together with whether the filter build would succeed at that moment. -/
def fPositiveHandlerRun : Wallet → List (PeerID × Bool) → Wallet × List Act
  | w, [] => (w, [])
  | w, (p, ok) :: rest =>
    let r := fPositiveHandlerStep w p ok
    let r2 := fPositiveHandlerRun r.1 rest
    (r2.1, r.2 ++ r2.2)

inductive InvType where
  | block
  | txType
  | other
deriving DecidableEq, Repr

structure InvVect where
  invType : InvType
  hash : Hash
deriving DecidableEq, Repr

/-- Collaborator responses consumed by `onInv`. -/
structure InvEnv where
  downloadPeer : Option PeerID
deriving Repr

/-- The goroutine body of `onInv(p, m)`: for each announced item, a block
is re-requested as a filtered block and (while SYNCING with `p` the
download peer) its hash is pushed onto the block queue — a push onto the
closed queue panics, which the deferred `recover` turns into an abort of
the remaining iterations; a transaction is re-requested; anything else is
skipped. -/
def onInv (p : PeerID) (env : InvEnv) : Wallet → List InvVect → Wallet × List Act
  | w, [] => (w, [])
  | w, inv :: rest =>
    match inv.invType with
    | InvType.block =>
      let a := Act.sendGetData p inv.hash
      if w.chainState = ChainState.SYNCING ∧ env.downloadPeer = some p then
        match chanSend w.blockQueue inv.hash with
        | none => (w, [a])
        | some q =>
          let r := onInv p env { w with blockQueue := q } rest
          (r.1, a :: r.2)
      else
        let r := onInv p env w rest
        (r.1, a :: r.2)
    | InvType.txType =>
      let r := onInv p env w rest
      (r.1, Act.sendGetData p inv.hash :: r.2)
    | InvType.other => onInv p env w rest

/-- Variant of `onInv` that follows the specification's words instead of
the source: a push onto the closed expectation queue is ignored as a
no-op and processing of the remaining items continues undisturbed. -/
def onInvSpecIgnoreClosedPush (p : PeerID) (env : InvEnv) :
    Wallet → List InvVect → Wallet × List Act
  | w, [] => (w, [])
  | w, inv :: rest =>
    match inv.invType with
    | InvType.block =>
      let a := Act.sendGetData p inv.hash
      if w.chainState = ChainState.SYNCING ∧ env.downloadPeer = some p then
        match chanSend w.blockQueue inv.hash with
        | none =>
          let r := onInvSpecIgnoreClosedPush p env w rest
          (r.1, a :: r.2)
        | some q =>
          let r := onInvSpecIgnoreClosedPush p env { w with blockQueue := q } rest
          (r.1, a :: r.2)
      else
        let r := onInvSpecIgnoreClosedPush p env w rest
        (r.1, a :: r.2)
    | InvType.txType =>
      let r := onInvSpecIgnoreClosedPush p env w rest
      (r.1, Act.sendGetData p inv.hash :: r.2)
    | InvType.other => onInvSpecIgnoreClosedPush p env w rest

/-- Modelled from the spec: the transaction store's `processReorg` (its
implementation is not under src/) rolls back / unconfirms every
pending-transaction record whose recorded height is at or above the
divergence height, keeping only records strictly below it.  Records are
(txid, height) pairs. -/
def processReorgModel (recs : List (Nat × Nat)) (d : Nat) : List (Nat × Nat) :=
  recs.filter fun r => r.2 < d

/-- Interpret the transaction-store effect of an action trace on a set of
pending-transaction records: only `processReorg` actions change it. -/
def applyTxStore : List (Nat × Nat) → List Act → List (Nat × Nat)
  | recs, [] => recs
  | recs, Act.processReorg d :: rest => applyTxStore (processReorgModel recs d) rest
  | recs, _ :: rest => applyTxStore recs rest

lemma mapGet_mapPut_self (m : List (Nat × Int)) (k : Nat) (v : Int) :
    mapGet (mapPut m k v) k = v := by
  simp [mapGet, mapPut, List.lookup]

/-- C1: while SYNCING with the sender as the designated download peer, a
merkle block whose header hash differs from the hash popped from the
front of the expectation queue makes the engine disconnect the peer and
abort: the only emitted action is the disconnect (in particular no header
commit), and the only state change is the consumed queue entry. -/
theorem C1_out_of_order_disconnect (w : Wallet) (p : PeerID) (hh : Hash)
    (env : MerkleEnv) (qh : Hash) (q : BlockQueue)
    (hs : w.chainState = ChainState.SYNCING)
    (hd : env.downloadPeer = some p)
    (hq : chanRecv w.blockQueue = some (qh, q))
    (hne : hh ≠ qh) :
    onMerkleBlock w p hh env =
      some ({ w with blockQueue := q }, [Act.disconnect p]) := by
  simp [onMerkleBlock, hs, hd, hq, hne]

def wC1 : Wallet := ⟨ChainState.SYNCING, ⟨[3], false⟩, [], []⟩
def envC1 : MerkleEnv := ⟨some 1, some [], some ⟨true, none, 10⟩, some [], 0⟩

theorem C1_out_of_order_disconnect_witness :
    onMerkleBlock wC1 1 4 envC1 =
      some ({ wC1 with blockQueue := ⟨[], false⟩ }, [Act.disconnect 1]) :=
  C1_out_of_order_disconnect wC1 1 4 envC1 3 ⟨[], false⟩ rfl rfl rfl (by decide)

/-- C10 (implicit): while SYNCING with the sender as the download peer,
the expectation entry is popped before proof validation and before the
header commit, so an invalid proof, a commit error, or a duplicate
(not-new) header still consumes exactly one entry while nothing is
committed: the resulting state is the input state with exactly the popped
queue, and the emitted actions are at most a disconnect and the commit
call itself. -/
theorem C10_pop_consumed_on_failure (w : Wallet) (p : PeerID) (hh : Hash)
    (env : MerkleEnv) (qh : Hash) (q : BlockQueue)
    (hs : w.chainState = ChainState.SYNCING)
    (hd : env.downloadPeer = some p)
    (hq : chanRecv w.blockQueue = some (qh, q))
    (heq : hh = qh)
    (habort : env.checkMBlock = none ∨ env.commit = none ∨
      ∃ cr, env.commit = some cr ∧ cr.newBlock = false) :
    ∃ acts, onMerkleBlock w p hh env = some ({ w with blockQueue := q }, acts) ∧
      ∀ a ∈ acts, a = Act.disconnect p ∨ a = Act.commitHeaderCall hh := by
  have hbody : ∀ w' : Wallet,
      onMerkleBlockBody w' p hh env = (w', [Act.disconnect p]) ∨
      onMerkleBlockBody w' p hh env = (w', [Act.commitHeaderCall hh]) := by
    intro w'
    rcases habort with h1 | h2 | ⟨cr, hcr, hnb⟩
    · left; simp [onMerkleBlockBody, h1]
    · cases hc : env.checkMBlock with
      | none => left; simp [onMerkleBlockBody, hc]
      | some txids => right; simp [onMerkleBlockBody, hc, h2]
    · cases hc : env.checkMBlock with
      | none => left; simp [onMerkleBlockBody, hc]
      | some txids => right; simp [onMerkleBlockBody, hc, hcr, hnb]
  obtain ⟨cs, bq, td, fp⟩ := w
  change cs = ChainState.SYNCING at hs
  subst hs
  subst heq
  rcases hbody ⟨ChainState.SYNCING, q, td, fp⟩ with hb | hb
  · exact ⟨[Act.disconnect p],
      by simp [onMerkleBlock, hd, hq, hb], by simp⟩
  · exact ⟨[Act.commitHeaderCall hh],
      by simp [onMerkleBlock, hd, hq, hb], by simp⟩

def envC10 : MerkleEnv := ⟨some 1, none, none, none, 0⟩

theorem C10_pop_consumed_on_failure_witness :
    ∃ acts, onMerkleBlock wC1 1 3 envC10 =
      some ({ wC1 with blockQueue := ⟨[], false⟩ }, acts) ∧
      ∀ a ∈ acts, a = Act.disconnect 1 ∨ a = Act.commitHeaderCall 3 :=
  C10_pop_consumed_on_failure wC1 1 3 envC10 3 ⟨[], false⟩ rfl rfl rfl rfl
    (Or.inl rfl)

/-- C2: a merkle block whose header commit reports a reorg with
divergence height `d` makes the engine call the transaction store's
rollback for height `d`, force the chain state to SYNCING, persist the
reorg marker, and spawn the sync driver against the same peer — in that
order, with the rollback strictly before the spawned sync — while
recording none of the block's matched txids (`toDownload` unchanged in
the resulting state).  Interpreting the action prefix up to the spawn
against the spec-modelled transaction store leaves no pending record at
height ≥ `d`. -/
theorem C2_reorg_rollback (w : Wallet) (p : PeerID) (hh : Hash)
    (env : MerkleEnv) (txids : List Nat) (d ht : Nat) (q : BlockQueue)
    (hcheck : env.checkMBlock = some txids)
    (hcommit : env.commit = some ⟨true, some d, ht⟩)
    (hgate : (w.chainState = ChainState.SYNCING ∧ env.downloadPeer = some p ∧
                chanRecv w.blockQueue = some (hh, q)) ∨
             (¬(w.chainState = ChainState.SYNCING ∧ env.downloadPeer = some p) ∧
                q = w.blockQueue)) :
    onMerkleBlock w p hh env =
      some ({ w with blockQueue := q, chainState := ChainState.SYNCING },
            [Act.commitHeaderCall hh, Act.processReorg d,
             Act.putReorgMarker d, Act.spawnChainDownload p]) ∧
    ∀ recs r, r ∈ applyTxStore recs
        [Act.commitHeaderCall hh, Act.processReorg d, Act.putReorgMarker d] →
      r.2 < d := by
  constructor
  · rcases hgate with ⟨hs, hd, hq⟩ | ⟨hg, hq⟩
    · simp [onMerkleBlock, hs, hd, hq, onMerkleBlockBody, hcheck, hcommit]
    · subst hq
      simp [onMerkleBlock, hg, onMerkleBlockBody, hcheck, hcommit]
  · intro recs r hr
    simp [applyTxStore, processReorgModel, List.mem_filter] at hr
    exact hr.2

def wC2 : Wallet := ⟨ChainState.SYNCING, ⟨[7], false⟩, [(1, 5)], []⟩
def envC2 : MerkleEnv := ⟨some 2, some [9], some ⟨true, some 3, 12⟩, none, 0⟩

theorem C2_reorg_rollback_witness :
    onMerkleBlock wC2 2 7 envC2 =
      some ((⟨ChainState.SYNCING, ⟨[], false⟩, [(1, 5)], []⟩ : Wallet),
            [Act.commitHeaderCall 7, Act.processReorg 3,
             Act.putReorgMarker 3, Act.spawnChainDownload 2]) ∧
    (4, 5) ∉ applyTxStore [(4, 5), (6, 2)]
        [Act.commitHeaderCall 7, Act.processReorg 3, Act.putReorgMarker 3] := by
  have h := C2_reorg_rollback wC2 2 7 envC2 [9] 3 12 ⟨[], false⟩ rfl rfl
    (Or.inl ⟨rfl, rfl, rfl⟩)
  exact ⟨h.1, fun hm => absurd (h.2 _ _ hm) (by decide)⟩

/-- C3: when the sync driver runs while SYNCING and the local height has
reached the peer's advertised best height, then if the peer manager
reports no better peer the chain state transitions to WAITING, the
rebroadcaster is invoked and the block queue is closed; if a better peer
exists the driver returns with no state change and no action. -/
theorem C3_sync_complete (w : Wallet) (p : PeerID) (env : SyncEnv)
    (hs : w.chainState = ChainState.SYNCING)
    (hge : env.localHeight ≥ uint32cast env.peerLastBlock) :
    (env.moreBlocks = false →
      startChainDownload w p env =
        ({ w with chainState := ChainState.WAITING, blockQueue := ⟨w.blockQueue.items, true⟩ },
         Act.rebroadcastCall :: Rebroadcast env.pendingInv env.connectedPeers)) ∧
    (env.moreBlocks = true → startChainDownload w p env = (w, [])) := by
  obtain ⟨cs, ⟨qitems, qclosed⟩, td, fp⟩ := w
  change cs = ChainState.SYNCING at hs
  subst hs
  constructor
  · intro hm
    cases qclosed with
    | false => simp [startChainDownload, hge, hm, chanClose]
    | true => simp [startChainDownload, hge, hm, chanClose]
  · intro hm
    simp [startChainDownload, hge, hm]

def wC3 : Wallet := ⟨ChainState.SYNCING, ⟨[], false⟩, [], []⟩
def envC3 : SyncEnv := ⟨500, 500, false, [], [], [7]⟩
def envC3more : SyncEnv := ⟨500, 500, true, [], [], [7]⟩

theorem C3_sync_complete_witness :
    startChainDownload wC3 9 envC3 =
      ((⟨ChainState.WAITING, ⟨[], true⟩, [], []⟩ : Wallet), [Act.rebroadcastCall]) ∧
    startChainDownload wC3 9 envC3more = (wC3, []) := by
  have h := C3_sync_complete wC3 9 envC3 rfl (by decide)
  have h2 := C3_sync_complete wC3 9 envC3more rfl (by decide)
  exact ⟨by simpa [Rebroadcast] using h.1 rfl, h2.2 rfl⟩

/-- Eight consecutive miss events for one peer, with the filter build
succeeding. -/
def missEvents (p : PeerID) (n : Nat) : List (PeerID × Bool) :=
  List.replicate n (p, true)

/-- C5: starting from an accumulator value of 0 for peer `p`, after
exactly 7 consecutive miss events no filter has been sent and the counter
is 7; after exactly 8, a filter refresh is sent to `p` and the counter is
0 again (the counter is reset only on refresh). -/
theorem C5_fp_threshold (p : PeerID) (w : Wallet)
    (h0 : mapGet w.fpAccumulator p = 0) :
    ((fPositiveHandlerRun w (missEvents p 7)).2 = [] ∧
      mapGet (fPositiveHandlerRun w (missEvents p 7)).1.fpAccumulator p = 7) ∧
    (Act.sendFilter p ∈ (fPositiveHandlerRun w (missEvents p 8)).2 ∧
      mapGet (fPositiveHandlerRun w (missEvents p 8)).1.fpAccumulator p = 0) := by
  have h7 : missEvents p 7 =
    [(p, true), (p, true), (p, true), (p, true), (p, true), (p, true), (p, true)] := rfl
  have h8 : missEvents p 8 = (p, true) ::
    [(p, true), (p, true), (p, true), (p, true), (p, true), (p, true), (p, true)] := rfl
  rw [h7, h8]
  simp [fPositiveHandlerRun, fPositiveHandlerStep, updateFilterAndSend, h0,
    mapGet_mapPut_self]

def wFP : Wallet := ⟨ChainState.SYNCING, ⟨[], false⟩, [], []⟩

theorem C5_fp_threshold_witness :
    ((fPositiveHandlerRun wFP (missEvents 1 7)).2 = [] ∧
      mapGet (fPositiveHandlerRun wFP (missEvents 1 7)).1.fpAccumulator 1 = 7) ∧
    (Act.sendFilter 1 ∈ (fPositiveHandlerRun wFP (missEvents 1 8)).2 ∧
      mapGet (fPositiveHandlerRun wFP (missEvents 1 8)).1.fpAccumulator 1 = 0) :=
  C5_fp_threshold 1 wFP rfl

/-- C9 (implicit): when a peer's accumulator, after the increment,
exceeds 7, it is reset to 0 regardless of whether the replacement filter
could be built; when the build fails no filter message is sent to the
peer, yet the accumulated miss count is still lost. -/
theorem C9_reset_even_on_filter_failure (w : Wallet) (p : PeerID)
    (h7 : mapGet w.fpAccumulator p ≥ 7) :
    (∀ ok, (fPositiveHandlerStep w p ok).1 =
      { w with fpAccumulator := mapPut w.fpAccumulator p 0 }) ∧
    (fPositiveHandlerStep w p false).2 = [] ∧
    mapGet (fPositiveHandlerStep w p false).1.fpAccumulator p = 0 := by
  have hc : mapGet w.fpAccumulator p + 1 > 7 := by omega
  refine ⟨fun ok => ?_, ?_, ?_⟩ <;>
    simp [fPositiveHandlerStep, hc, updateFilterAndSend, mapGet_mapPut_self]

def wC9 : Wallet := ⟨ChainState.SYNCING, ⟨[], false⟩, [], [(2, 7)]⟩

theorem C9_reset_even_on_filter_failure_witness :
    (fPositiveHandlerStep wC9 2 false).1 =
      { wC9 with fpAccumulator := mapPut [(2, 7)] 2 0 } ∧
    (fPositiveHandlerStep wC9 2 false).2 = [] := by
  have h := C9_reset_even_on_filter_failure wC9 2 (by decide)
  exact ⟨h.1 false, h.2.1⟩

/-- C7: the ingest handler reads the transaction's recorded height from
the pending-height map (0 when the key is absent) and hands txid and
height to the store; zero hits emit exactly one false-positive miss event
for the sender and no filter; nonzero hits (with the filter build
succeeding) send an updated filter and emit no miss event. -/
theorem C7_onTx_hits (w : Wallet) (p : PeerID) (txHash : Nat) (env : TxEnv) :
    (w.toDownload.lookup txHash = none → mapGet w.toDownload txHash = 0) ∧
    (env.ingest = some 0 →
      onTx w p txHash env =
        (w, [Act.ingestCall txHash (mapGet w.toDownload txHash),
             Act.fPositiveEvent p])) ∧
    (∀ n, env.ingest = some (n + 1) → env.filterOk = true →
      onTx w p txHash env =
        (w, [Act.ingestCall txHash (mapGet w.toDownload txHash),
             Act.sendFilter p])) := by
  refine ⟨fun h => by simp [mapGet, h], fun h => by simp [onTx, h],
    fun n h hf => by simp [onTx, h, updateFilterAndSend, hf]⟩

def wC7 : Wallet := ⟨ChainState.SYNCING, ⟨[], false⟩, [(5, 42)], []⟩
def envC7zero : TxEnv := ⟨some 0, true⟩
def envC7hit : TxEnv := ⟨some 1, true⟩

theorem C7_onTx_hits_witness :
    onTx wC7 3 5 envC7zero = (wC7, [Act.ingestCall 5 42, Act.fPositiveEvent 3]) ∧
    onTx wC7 3 5 envC7hit = (wC7, [Act.ingestCall 5 42, Act.sendFilter 3]) := by
  have h := C7_onTx_hits wC7 3 5 envC7zero
  have h2 := C7_onTx_hits wC7 3 5 envC7hit
  exact ⟨h.2.1 rfl, h2.2.2 0 rfl rfl⟩

lemma onMerkleBlockBody_no_markDead (w : Wallet) (p : PeerID) (hh : Hash)
    (env : MerkleEnv) (hne : w.chainState ≠ ChainState.WAITING) (id : Nat) :
    Act.markDead id ∉ (onMerkleBlockBody w p hh env).2 := by
  obtain ⟨cs, bq, td, fp⟩ := w
  change cs ≠ ChainState.WAITING at hne
  cases cs with
  | WAITING => exact absurd rfl hne
  | SYNCING =>
    cases hc : env.checkMBlock with
    | none => simp [onMerkleBlockBody, hc]
    | some txids =>
      cases hcm : env.commit with
      | none => simp [onMerkleBlockBody, hc, hcm]
      | some cr =>
        obtain ⟨nb, rg, hgt⟩ := cr
        cases nb with
        | false => simp [onMerkleBlockBody, hc, hcm]
        | true =>
          cases rg with
          | some d => simp [onMerkleBlockBody, hc, hcm]
          | none =>
            by_cases hb : bq.items = []
            · simp [onMerkleBlockBody, hc, hcm, hb]
            · simp [onMerkleBlockBody, hc, hcm, hb]

lemma sweepGo_mem (txns : List TxnRec) (now : Int) (id : Nat) :
    Act.markDead id ∈ sweepGo txns now ↔
      ∃ t ∈ txns, t.txid = some id ∧
        (now > t.timestamp + MAX_UNCONFIRMED_TIME ∧ t.height = 0) := by
  induction txns with
  | nil => simp [sweepGo]
  | cons t rest ih =>
    obtain ⟨txid, ht, ts, me⟩ := t
    by_cases hc : now > ts + MAX_UNCONFIRMED_TIME ∧ ht = 0
    · cases txid with
      | none => simp [sweepGo, hc, ih]
      | some j => simp [sweepGo, hc, ih]; tauto
    · simp [sweepGo, hc, ih]

/-- C6: the staleness sweep runs only when the chain state is WAITING (a
handler invocation in any other state marks nothing dead), and over a
transaction list it attempts the mark-dead call exactly for records whose
height is 0 and whose timestamp is more than 7 days old and whose txid
parses; a record failing the parse, or an error from the store, skips
only that record and never halts the sweep over the rest (membership of
every other record's mark is unaffected by its fields). -/
theorem C6_staleness_sweep (txns : List TxnRec) (now : Int) :
    (∀ (w : Wallet) (p : PeerID) (hh : Hash) (env : MerkleEnv)
       (res : Wallet × List Act),
      w.chainState ≠ ChainState.WAITING → onMerkleBlock w p hh env = some res →
      ∀ id, Act.markDead id ∉ res.2) ∧
    (∀ id, Act.markDead id ∈ sweepGo txns now ↔
      ∃ t ∈ txns, t.txid = some id ∧
        (now > t.timestamp + MAX_UNCONFIRMED_TIME ∧ t.height = 0)) := by
  constructor
  · intro w p hh env res hne hres id
    by_cases hg : w.chainState = ChainState.SYNCING ∧ env.downloadPeer = some p
    · simp only [onMerkleBlock, if_pos hg] at hres
      cases hq : chanRecv w.blockQueue with
      | none => simp [hq] at hres
      | some pr =>
        obtain ⟨qh, q⟩ := pr
        simp only [hq] at hres
        by_cases hhq : hh ≠ qh
        · simp only [if_pos hhq, Option.some.injEq] at hres
          rw [← hres]; simp
        · simp only [if_neg hhq, Option.some.injEq] at hres
          have hb := onMerkleBlockBody_no_markDead
            { w with blockQueue := q } p hh env hne id
          rw [← hres]; exact hb
    · simp only [onMerkleBlock, if_neg hg, Option.some.injEq] at hres
      have hb := onMerkleBlockBody_no_markDead w p hh env hne id
      rw [← hres]; exact hb
  · intro id
    exact sweepGo_mem txns now id

def txnsC6 : List TxnRec := [⟨some 5, 0, 0, false⟩, ⟨some 6, 0, 600000, false⟩]
def wC6 : Wallet := ⟨ChainState.SYNCING, ⟨[], true⟩, [], []⟩
def envC6 : MerkleEnv := ⟨none, none, none, none, 0⟩

theorem C6_staleness_sweep_witness :
    Act.markDead 5 ∈ sweepGo txnsC6 604801 ∧
    Act.markDead 5 ∉ [Act.disconnect 1] := by
  have h := C6_staleness_sweep txnsC6 604801
  refine ⟨(h.2 5).mpr ⟨⟨some 5, 0, 0, false⟩, by decide, rfl, by decide, by decide⟩, ?_⟩
  exact h.1 wC6 1 0 envC6 (wC6, [Act.disconnect 1]) (by decide) (by rfl) 5

lemma onInv_closed_eq (p : PeerID) (env : InvEnv) :
    ∀ (items : List InvVect) (w : Wallet),
      (onInv p env w items).1.blockQueue.closed = w.blockQueue.closed := by
  intro items
  induction items with
  | nil => intro w; rfl
  | cons inv rest ih =>
    intro w
    cases hti : inv.invType with
    | block =>
      by_cases hg : w.chainState = ChainState.SYNCING ∧ env.downloadPeer = some p
      · cases hcs : chanSend w.blockQueue inv.hash with
        | none => simp [onInv, hti, hg, hcs]
        | some q =>
          have hq : q.closed = w.blockQueue.closed := by
            unfold chanSend at hcs
            by_cases hcl : w.blockQueue.closed
            · simp [hcl] at hcs
            · simp [hcl] at hcs
              rw [← hcs]
              simpa using hcl
          simp [onInv, hti, hg, hcs, ih, hq]
      · simp [onInv, hti, hg, ih]
    | txType => simp [onInv, hti, ih]
    | other => simp [onInv, hti, ih]

/-- C4 (amended): a push onto the expectation queue after it was closed
never re-opens it (`onInv` leaves the closed flag exactly as it found it)
and the process survives (the handler always returns), but the push is
not a no-op: the send on the closed channel panics and the recovered
panic aborts the goroutine, so processing stops right after the getdata
for that block — the remaining items of the inventory message are
dropped. -/
theorem C4_push_after_close (w : Wallet) (p : PeerID) (env : InvEnv)
    (items : List InvVect) :
    ((onInv p env w items).1.blockQueue.closed = w.blockQueue.closed) ∧
    (w.blockQueue.closed = true → w.chainState = ChainState.SYNCING →
      env.downloadPeer = some p →
      ∀ h rest, onInv p env w (⟨InvType.block, h⟩ :: rest) =
        (w, [Act.sendGetData p h])) := by
  refine ⟨onInv_closed_eq p env items w, fun hcl hs hd h rest => ?_⟩
  have hcs : chanSend w.blockQueue h = none := by simp [chanSend, hcl]
  simp [onInv, hs, hd, hcs]

def wC4 : Wallet := ⟨ChainState.SYNCING, ⟨[], true⟩, [], []⟩
def envC4 : InvEnv := ⟨some 1⟩

/-- C4 counterexample: with the queue closed while SYNCING with the
download peer, the source handler and the spec's ignore-the-push variant
disagree on the very same input — the source never requests the second
(transaction) item of the message, so the push is not handled as a
no-op that leaves the rest of the state transitions undisturbed. -/
theorem C4_push_after_close_cex :
    onInv 1 envC4 wC4 [⟨InvType.block, 5⟩, ⟨InvType.txType, 9⟩] ≠
      onInvSpecIgnoreClosedPush 1 envC4 wC4
        [⟨InvType.block, 5⟩, ⟨InvType.txType, 9⟩] := by
  decide

theorem C4_push_after_close_witness :
    (onInv 1 envC4 wC4 [⟨InvType.block, 5⟩, ⟨InvType.txType, 9⟩]).1.blockQueue.closed
        = true ∧
    onInv 1 envC4 wC4 [⟨InvType.block, 5⟩, ⟨InvType.txType, 9⟩] =
      (wC4, [Act.sendGetData 1 5]) := by
  have hc := C4_push_after_close wC4 1 envC4 [⟨InvType.block, 5⟩, ⟨InvType.txType, 9⟩]
  exact ⟨hc.1, hc.2 rfl rfl rfl 5 [⟨InvType.txType, 9⟩]⟩

/-- Mutex and collaborator events of the engine, in program order. -/
inductive LockEv where
  | lockMutex
  | unlockMutex
  | rlockMutex
  | runlockMutex
  | headerStoreCall
  | txStoreCall
  | peerMgrCall
  | netSend
deriving DecidableEq, Repr

/-- Scans a trace with the current mutex hold depth `d` and reports
whether a network send or a header/transaction-store collaborator call
happens while the mutex (read or write) is held. -/
def lockViolationAux : List LockEv → Nat → Bool
  | [], _ => false
  | LockEv.lockMutex :: r, d => lockViolationAux r (d + 1)
  | LockEv.rlockMutex :: r, d => lockViolationAux r (d + 1)
  | LockEv.unlockMutex :: r, d => lockViolationAux r (d - 1)
  | LockEv.runlockMutex :: r, d => lockViolationAux r (d - 1)
  | e :: r, d =>
    (decide (0 < d) && (e == LockEv.netSend || e == LockEv.headerStoreCall ||
      e == LockEv.txStoreCall)) || lockViolationAux r d

def violatesLockDiscipline (tr : List LockEv) : Bool := lockViolationAux tr 0

/-- The mutex/collaborator event trace of `startChainDownload`, by
branch: `mutex.Lock()`, then `blockchain.ChainState()`; while SYNCING,
`db.Height()`; when caught up, `CheckForMoreBlocks` and — if no better
peer — `SetChainState`, the rebroadcast (`GetPendingInv` plus one send
per connected peer) and the queue close; when not caught up,
`GetBlockLocatorHashes` and the `getblocks` send; the deferred
`mutex.Unlock()` runs last. -/
def startChainDownloadLockTrace (syncing caughtUp moar pendingEmpty : Bool)
    (nPeers : Nat) : List LockEv :=
  [LockEv.lockMutex, LockEv.headerStoreCall] ++
    (if syncing then
      [LockEv.headerStoreCall] ++
        (if caughtUp then
          [LockEv.peerMgrCall] ++
            (if moar then []
             else [LockEv.headerStoreCall, LockEv.txStoreCall] ++
               (if pendingEmpty then []
                else List.replicate nPeers LockEv.netSend))
         else [LockEv.headerStoreCall, LockEv.netSend])
     else []) ++ [LockEv.unlockMutex]

/-- The only mutex use inside `onMerkleBlock`: the loop recording `n`
matched txids locks and unlocks around each map write; every collaborator
call of that handler happens outside the mutex. -/
def merkleTxidLoopLockTrace : Nat → List LockEv
  | 0 => []
  | n + 1 => LockEv.lockMutex :: LockEv.unlockMutex :: merkleTxidLoopLockTrace n

/-- The mutex/collaborator event trace of `onTx`: `RLock`/`RUnlock`
around the height read, then `Ingest`, then on a hit `GimmeFilter` and
the filter send, all outside the mutex. -/
def onTxLockTrace (ingestErr zeroHits filterOk : Bool) : List LockEv :=
  [LockEv.rlockMutex, LockEv.runlockMutex, LockEv.txStoreCall] ++
    (if ingestErr then []
     else if zeroHits then []
     else [LockEv.txStoreCall] ++ (if filterOk then [LockEv.netSend] else []))

/-- The mutex/collaborator event trace of one `fPositiveHandler`
iteration: `RLock`/`RUnlock` around the counter read; past the threshold
`GimmeFilter` and the filter send, outside the mutex; then
`Lock`/`Unlock` around the counter write. -/
def fPositiveLockTrace (over7 filterOk : Bool) : List LockEv :=
  [LockEv.rlockMutex, LockEv.runlockMutex] ++
    (if over7 then
      [LockEv.txStoreCall] ++ (if filterOk then [LockEv.netSend] else [])
     else []) ++ [LockEv.lockMutex, LockEv.unlockMutex]

lemma merkleTxidLoopLockTrace_ok (n : Nat) :
    violatesLockDiscipline (merkleTxidLoopLockTrace n) = false := by
  have haux : ∀ m, lockViolationAux (merkleTxidLoopLockTrace m) 0 = false := by
    intro m
    induction m with
    | zero => rfl
    | succ k ih => simpa [merkleTxidLoopLockTrace, lockViolationAux] using ih
  exact haux n

/-- C8 counterexample: in `startChainDownload` the engine mutex is held
across header-store calls in every branch — and, when a block request or
the rebroadcast goes out, across network sends too — so the claim that
no engine operation holds the mutex across a send or a header- or
transaction-store call is false at this concrete trace (SYNCING, not
caught up: the `getblocks` send happens under the lock). -/
theorem C8_lock_discipline_cex :
    violatesLockDiscipline
      (startChainDownloadLockTrace true false false false 0) = true := by
  decide

/-- C8 (amended): the claimed lock discipline holds for the txid
recording in `onMerkleBlock`, for `onTx` and for the false-positive
handler, whose critical sections contain only map/field accesses; it
fails for `startChainDownload`, which holds the coarse mutex across
header-store calls, a transaction-store call and network sends for its
entire body. -/
theorem C8_lock_discipline (syncing caughtUp moar pendingEmpty : Bool)
    (nPeers n : Nat) (ingestErr zeroHits filterOk over7 fOk : Bool) :
    violatesLockDiscipline
      (startChainDownloadLockTrace syncing caughtUp moar pendingEmpty nPeers)
        = true ∧
    violatesLockDiscipline (merkleTxidLoopLockTrace n) = false ∧
    violatesLockDiscipline (onTxLockTrace ingestErr zeroHits filterOk) = false ∧
    violatesLockDiscipline (fPositiveLockTrace over7 fOk) = false := by
  refine ⟨?_, merkleTxidLoopLockTrace_ok n, ?_, ?_⟩
  · cases syncing <;> cases caughtUp <;> cases moar <;> cases pendingEmpty <;> rfl
  · cases ingestErr <;> cases zeroHits <;> cases filterOk <;> rfl
  · cases over7 <;> cases fOk <;> rfl
